import Mathlib

/-!
A shallow embedding of `deepracer/logs/log_utils.py` (deepracer-utils), the
log-parsing-and-aggregation pipeline of the DeepRacer analysis utilities,
together with proofs about its behaviour.

Conventions of the embedding:
* Python floats and `decimal.Decimal` values are modelled as exact rationals
  (the trace values are short decimal literals, exactly representable).
* Python exceptions (IOError, IndexError, TypeError, ValueError,
  ZeroDivisionError) are modelled by `Option`/`Except` failure values.
* pandas tables are lists of typed rows; a data frame column that may or may
  not exist (`new_reward`) is an optional parallel column.
-/

/-! ## Python string and number casting primitives -/

def charsStartWith : List Char → List Char → Bool
  | [], _ => true
  | _ :: _, [] => false
  | a :: as, b :: bs => a == b && charsStartWith as bs

def charsContain (needle : List Char) : List Char → Bool
  | [] => needle.isEmpty
  | b :: bs => charsStartWith needle (b :: bs) || charsContain needle bs

/-- Python `sub in s` substring containment. -/
def strContains (s sub : String) : Bool := charsContain sub.data s.data

def natOfDigits (cs : List Char) : ℕ :=
  cs.foldl (fun a c => a * 10 + (c.toNat - 48)) 0

def natOfDigitsChecked (cs : List Char) : Option ℕ :=
  if !cs.isEmpty && cs.all Char.isDigit then some (natOfDigits cs) else none

def intOfChars : List Char → Option ℤ
  | '-' :: cs => (natOfDigitsChecked cs).map (fun n => -(n : ℤ))
  | '+' :: cs => (natOfDigitsChecked cs).map (fun n => (n : ℤ))
  | cs => (natOfDigitsChecked cs).map (fun n => (n : ℤ))

/-- Python `int(s)`: an optionally signed run of digits (a failed cast raises
ValueError, modelled as `none`). -/
def pyInt (s : String) : Option ℤ := intOfChars s.trim.data

def qOfParts (ip frac : List Char) : ℚ :=
  (natOfDigits ip : ℚ) + (natOfDigits frac : ℚ) / (10 : ℚ) ^ frac.length

def unsignedQOfChars (cs : List Char) : Option ℚ :=
  let ip := cs.takeWhile (fun c => c ≠ '.')
  match cs.dropWhile (fun c => c ≠ '.') with
  | [] => (natOfDigitsChecked ip).map (fun n => (n : ℚ))
  | _ :: frac =>
    if ip.isEmpty && frac.isEmpty then none
    else if ip.all Char.isDigit && frac.all Char.isDigit then some (qOfParts ip frac)
    else none

def floatOfChars : List Char → Option ℚ
  | '-' :: cs => (unsignedQOfChars cs).map (fun q => -q)
  | '+' :: cs => unsignedQOfChars cs
  | cs => unsignedQOfChars cs

/-- Python `float(s)` on the decimal-literal subset emitted by the simulator
trace format (optional sign, digits, optional fractional part); exponent,
infinity and NaN spellings are outside the modelled well-formed domain. -/
def pyFloat (s : String) : Option ℚ := floatOfChars s.trim.data

/-- Python `decimal.Decimal(s)`: exact decimal value, same literal subset. -/
def pyDecimal (s : String) : Option ℚ := floatOfChars s.trim.data

/-- Python `int(q)` applied to a real value: truncation toward zero. On a
normalized rational this is numerator-by-denominator truncating division. -/
def pyTrunc (q : ℚ) : ℤ := q.num.tdiv q.den

/-! ## SimulationLogsIO.convert_to_pandas (log_utils.py lines 89-138) -/

/-- Line 128 of log_utils.py: `iteration = int(episode / episodes_per_iteration) + 1`
with Python 3 true division modelled exactly over ℚ. -/
def iterationOf (episode episodes_per_iteration : ℤ) : ℤ :=
  pyTrunc ((episode : ℚ) / (episodes_per_iteration : ℚ)) + 1

/-- One parsed trace record: the row type of the data frame produced by
`convert_to_pandas`, in the column order of `header`. -/
structure Row where
  iteration : ℤ
  episode : ℤ
  steps : ℤ
  x : ℚ
  y : ℚ
  yaw : ℚ
  steer : ℚ
  throttle : ℚ
  action : ℚ
  reward : ℚ
  done : ℤ
  on_track : String
  progress : ℚ
  closest_waypoint : ℤ
  track_len : ℚ
  timestamp : ℚ
  deriving Repr, DecidableEq, Inhabited

/-- The data frame: rows plus the optional `new_reward` column (absent on the
frame produced by `convert_to_pandas`, added in place by `simulation_agg`). -/
structure Table where
  rows : List Row
  new_reward : Option (List ℚ)
  deriving Repr, DecidableEq

/-- The column names of the converted frame (log_utils.py lines 133-135). -/
def header : List String :=
  ["iteration", "episode", "steps", "x", "y", "yaw", "steer",
   "throttle", "action", "reward", "done", "on_track", "progress",
   "closest_waypoint", "track_len", "timestamp"]

/-- One pass of the parsing loop of `convert_to_pandas` (lines 110-131): strip
trailing whitespace, split the record on commas, and positionally cast each
field; `x` and `y` are scaled by 100, `done` is 0 exactly when the 10th field
contains "False", and `iteration` is derived, not parsed.  Any failed cast
(Python ValueError / IndexError, or ZeroDivisionError when
`episodes_per_iteration` is zero) aborts with `none`. -/
def parseTraceRecord (episodes_per_iteration : ℤ) (d : String) : Option Row :=
  let parts := (d.trimRight).splitOn ","
  ((parts.get? 0).bind pyInt).bind (fun episode =>
  ((parts.get? 1).bind pyInt).bind (fun steps =>
  (((parts.get? 2).bind pyFloat).map (fun v => 100 * v)).bind (fun x =>
  (((parts.get? 3).bind pyFloat).map (fun v => 100 * v)).bind (fun y =>
  ((parts.get? 4).bind pyFloat).bind (fun yaw =>
  ((parts.get? 5).bind pyFloat).bind (fun steer =>
  ((parts.get? 6).bind pyFloat).bind (fun throttle =>
  ((parts.get? 7).bind pyFloat).bind (fun action =>
  ((parts.get? 8).bind pyFloat).bind (fun reward =>
  (parts.get? 9).bind (fun p9 =>
  (parts.get? 10).bind (fun on_track =>
  ((parts.get? 11).bind pyFloat).bind (fun progress =>
  ((parts.get? 12).bind pyInt).bind (fun closest_waypoint =>
  ((parts.get? 13).bind pyFloat).bind (fun track_len =>
  ((parts.get? 14).bind pyDecimal).bind (fun timestamp =>
  if episodes_per_iteration = 0 then none
  else
    some (Row.mk (iterationOf episode episodes_per_iteration) episode steps x y yaw steer
      throttle action reward (if strContains p9 "False" then 0 else 1) on_track progress
      closest_waypoint track_len timestamp))))))))))))))))

def convertRows (episodes_per_iteration : ℤ) : List String → Option (List Row)
  | [] => some []
  | d :: ds => do
    let r ← parseTraceRecord episodes_per_iteration d
    let rs ← convertRows episodes_per_iteration ds
    some (r :: rs)

/-- `SimulationLogsIO.convert_to_pandas(data, episodes_per_iteration)`: discard
the first two placeholder records, parse the rest in order; a malformed field
aborts the whole batch.  The produced frame has no `new_reward` column. -/
def convert_to_pandas (data : List String) (episodes_per_iteration : ℤ) : Option Table :=
  (convertRows episodes_per_iteration (data.drop 2)).map (fun rs => ⟨rs, none⟩)

/-- The positional-casting correspondence the spec asserts for one record:
row `r` is the strict positional cast of the comma-split fields of `d`
(trailing whitespace stripped), with the spatial coordinates scaled by 100,
`done` derived from a "False" substring test on field 9, field 10 kept
verbatim, and `iteration` derived from the parsed episode. -/
def matchesRecord (episodes_per_iteration : ℤ) (d : String) (r : Row) : Prop :=
  (((d.trimRight).splitOn ",").get? 0).bind pyInt = some r.episode ∧
  (((d.trimRight).splitOn ",").get? 1).bind pyInt = some r.steps ∧
  ((((d.trimRight).splitOn ",").get? 2).bind pyFloat).map (fun v => 100 * v) = some r.x ∧
  ((((d.trimRight).splitOn ",").get? 3).bind pyFloat).map (fun v => 100 * v) = some r.y ∧
  (((d.trimRight).splitOn ",").get? 4).bind pyFloat = some r.yaw ∧
  (((d.trimRight).splitOn ",").get? 5).bind pyFloat = some r.steer ∧
  (((d.trimRight).splitOn ",").get? 6).bind pyFloat = some r.throttle ∧
  (((d.trimRight).splitOn ",").get? 7).bind pyFloat = some r.action ∧
  (((d.trimRight).splitOn ",").get? 8).bind pyFloat = some r.reward ∧
  (((d.trimRight).splitOn ",").get? 9).map
    (fun s => if strContains s "False" then (0 : ℤ) else 1) = some r.done ∧
  ((d.trimRight).splitOn ",").get? 10 = some r.on_track ∧
  (((d.trimRight).splitOn ",").get? 11).bind pyFloat = some r.progress ∧
  (((d.trimRight).splitOn ",").get? 12).bind pyInt = some r.closest_waypoint ∧
  (((d.trimRight).splitOn ",").get? 13).bind pyFloat = some r.track_len ∧
  (((d.trimRight).splitOn ",").get? 14).bind pyDecimal = some r.timestamp ∧
  r.iteration = iterationOf r.episode episodes_per_iteration

/-! ## SimulationLogsIO.load_single_file / load_data (lines 36-87) -/

inductive PyErr where
  | ioError
  | indexError
  | typeError
  deriving Repr, DecidableEq

/-- A file system: a path maps to the list of lines of the file, `none` when
the file does not exist. -/
def FileSys : Type := String → Option (List String)

/-- The body of the line loop of `load_single_file`: a line containing
"SIM_TRACE_LOG" is reduced to
`",".join(line.split("SIM_TRACE_LOG:")[1].split('\t')[0].split(","))`;
other lines are skipped (`none`).  A marker occurrence that is never followed
by a colon makes the index `[1]` raise IndexError. -/
def extractTraceLine (line : String) : Option (Except PyErr String) :=
  if strContains line "SIM_TRACE_LOG" then
    match (line.splitOn "SIM_TRACE_LOG:").get? 1 with
    | none => some (Except.error PyErr.indexError)
    | some rest =>
      some (Except.ok (String.intercalate "," (((rest.splitOn "\t").headD "").splitOn ",")))
  else none

def extractTraceLines : List String → Except PyErr (List String)
  | [] => Except.ok []
  | l :: ls =>
    match extractTraceLine l with
    | none => extractTraceLines ls
    | some (Except.error e) => Except.error e
    | some (Except.ok s) => (extractTraceLines ls).map (fun rest => s :: rest)

/-- `SimulationLogsIO.load_single_file(fname, data)`.  The Python body begins
with `if not data: data = []`, which rebinds an empty (or None) `data` argument
to a fresh list, so the appends go to the fresh list and the list passed by the
caller is extended only when it was nonempty.  The first component is the
returned list, the second is the caller's list after the call.  A missing file
raises IOError. -/
def load_single_file (fs : FileSys) (fname : String) (data : List String) :
    Except PyErr (List String × List String) :=
  match fs fname with
  | none => Except.error PyErr.ioError
  | some lines =>
    (extractTraceLines lines).map (fun ext =>
      if data.isEmpty then (ext, data) else (data ++ ext, data ++ ext))

/-- The rollover scan of `load_data`: while `isfile(f"{fname}.{i}")`, load that
file into `data` (discarding the function's return value, as the source does)
and increment `i`.  The while loop is modelled with explicit fuel; with enough
fuel the scan ends at the first missing continuation file, which is not an
error. -/
def rolloverScan (fs : FileSys) (fname : String) : ℕ → ℕ → List String →
    Except PyErr (List String × ℕ)
  | 0, i, data => Except.ok (data, i)
  | fuel + 1, i, data =>
    match fs (fname ++ "." ++ toString i) with
    | none => Except.ok (data, i)
    | some _ =>
      match load_single_file fs (fname ++ "." ++ toString i) data with
      | Except.error e => Except.error e
      | Except.ok (_, data2) => rolloverScan fs fname fuel (i + 1) data2

/-- `SimulationLogsIO.load_data(fname)`: scan the rollover files `.1`, `.2`, …
then load the base file, each time discarding `load_single_file`'s return value
and keeping the local `data` list, which is what is returned. -/
def load_data (fs : FileSys) (fname : String) (fuel : ℕ) : Except PyErr (List String) :=
  match rolloverScan fs fname fuel 1 [] with
  | Except.error e => Except.error e
  | Except.ok (data, _) =>
    match load_single_file fs fname data with
    | Except.error e => Except.error e
    | Except.ok (_, data2) => Except.ok data2

/-! ## AnalysisUtils.simulation_agg (lines 171-214) -/

def keyLE (a b : ℤ × ℤ) : Bool := a.1 < b.1 || (a.1 == b.1 && a.2 ≤ b.2)

def keyOf (fg : Row → ℤ) (r : Row) : ℤ × ℤ := (fg r, r.episode)

/-- The group keys of pandas `groupby([firstgroup, "episode"])`: the distinct
(firstgroup, episode) pairs, in ascending lexicographic order. -/
def groupKeys (fg : Row → ℤ) (rows : List Row) : List (ℤ × ℤ) :=
  ((rows.map (keyOf fg)).dedup).mergeSort keyLE

/-- The rows of one group, in their original order. -/
def groupOf (fg : Row → ℤ) (rows : List Row) (k : ℤ × ℤ) : List Row :=
  rows.filter (fun r => keyOf fg r == k)

def npMaxQ : List ℚ → ℚ
  | [] => 0
  | x :: xs => xs.foldl max x

def npMinQ : List ℚ → ℚ
  | [] => 0
  | x :: xs => xs.foldl min x

def npMaxI : List ℤ → ℤ
  | [] => 0
  | x :: xs => xs.foldl max x

def npSumQ (l : List ℚ) : ℚ := l.sum

def npMeanQ (l : List ℚ) : ℚ := npSumQ l / (l.length : ℚ)

/-- pandas `cut(column, 5, labels=["1st", "2nd", "3rd", "4th", "5th"])` for a
value `v` of a column with minimum `mn` and maximum `mx`: five equal-WIDTH
right-closed bins spanning the value range `[mn, mx]` (pandas extends the
lowest edge slightly so the minimum is included, which the `≤` below covers for
values drawn from the column).  When the range is zero pandas widens the bins
symmetrically around the single value, which then falls in the middle bin. -/
def pdCut5Label (mn mx v : ℚ) : String :=
  if mn = mx then "3rd"
  else if v ≤ mn + (mx - mn) / 5 then "1st"
  else if v ≤ mn + 2 * ((mx - mn) / 5) then "2nd"
  else if v ≤ mn + 3 * ((mx - mn) / 5) then "3rd"
  else if v ≤ mn + 4 * ((mx - mn) / 5) then "4th"
  else "5th"

/-- One row of the aggregated result.  Columns that exist only outside
evaluation mode (`new_reward`, `reward`, `reward_if_complete`, `quintile`) and
the optional merged `timestamp` column are `Option`-valued, `none` when the
column is absent from the produced frame. -/
structure AggRow where
  fgval : ℤ
  episode : ℤ
  steps : ℤ
  start_at : ℤ
  progress : ℚ
  time : ℚ
  new_reward : Option ℚ
  throttle : ℚ
  reward : Option ℚ
  time_if_complete : ℚ
  reward_if_complete : Option ℚ
  quintile : Option String
  timestamp : Option ℚ
  deriving Repr, DecidableEq

/-- Lines 189-194: when not in evaluation mode and the frame has no
`new_reward` column, `panda['new_reward'] = panda['reward']` adds the column to
the caller's frame in place (copying `reward`); otherwise the frame is left
unchanged. -/
def mutateNR (panda : Table) (is_eval : Bool) : Table :=
  if !is_eval && panda.new_reward.isNone then
    ⟨panda.rows, some (panda.rows.map Row.reward)⟩
  else panda

/-- The aggregation core of `simulation_agg` on the (possibly just mutated)
frame with rows `rows` and `new_reward` column `nrs`.  Each one-statistic frame
is a keyed association list over the shared duplicate-free group keys; the
successive pandas inner merges on (firstgroup, episode) are the key lookups.
`np.ptp` is max − min; `Decimal` timestamps cast to float are already exact
rationals here.  Derived columns follow lines 202-207; the quintile label
applies pandas `cut` (equal-width binning) to the episode column of the merged
result; `add_timestamp` merges the per-group maximum timestamp (the
`pd.to_datetime` presentation of that number is not modelled). -/
def by_steps (fg : Row → ℤ) (rows : List Row) : List ((ℤ × ℤ) × ℤ) :=
  (groupKeys fg rows).map (fun k => (k, npMaxI ((groupOf fg rows k).map Row.steps)))

def by_start (fg : Row → ℤ) (rows : List Row) : List ((ℤ × ℤ) × ℤ) :=
  (groupKeys fg rows).map (fun k =>
    (k, (((groupOf fg rows k).head?).map Row.closest_waypoint).getD 0))

def by_progress (fg : Row → ℤ) (rows : List Row) : List ((ℤ × ℤ) × ℚ) :=
  (groupKeys fg rows).map (fun k => (k, npMaxQ ((groupOf fg rows k).map Row.progress)))

def by_throttle (fg : Row → ℤ) (rows : List Row) : List ((ℤ × ℤ) × ℚ) :=
  (groupKeys fg rows).map (fun k => (k, npMeanQ ((groupOf fg rows k).map Row.throttle)))

def by_time (fg : Row → ℤ) (rows : List Row) : List ((ℤ × ℤ) × ℚ) :=
  (groupKeys fg rows).map (fun k =>
    (k, npMaxQ ((groupOf fg rows k).map Row.timestamp)
      - npMinQ ((groupOf fg rows k).map Row.timestamp)))

def by_new_reward (fg : Row → ℤ) (rows : List Row) (nrs : List ℚ) : List ((ℤ × ℤ) × ℚ) :=
  (groupKeys fg rows).map (fun k =>
    (k, npSumQ (((rows.zip nrs).filter (fun rn => keyOf fg rn.1 == k)).map Prod.snd)))

def by_reward (fg : Row → ℤ) (rows : List Row) : List ((ℤ × ℤ) × ℚ) :=
  (groupKeys fg rows).map (fun k => (k, npSumQ ((groupOf fg rows k).map Row.reward)))

def by_timestampMax (fg : Row → ℤ) (rows : List Row) : List ((ℤ × ℤ) × ℚ) :=
  (groupKeys fg rows).map (fun k => (k, npMaxQ ((groupOf fg rows k).map Row.timestamp)))

/-- The merged frame before the quintile and optional timestamp columns are
attached: the successive inner merges collapse to, per key of the left frame
`by_steps`, the lookups of the other one-statistic frames, all keyed by the
same duplicate-free (firstgroup, episode) list. -/
def aggRowOf (fg : Row → ℤ) (rows : List Row) (nrs : List ℚ) (is_eval : Bool)
    (k : ℤ × ℤ) (st : ℤ) : Option AggRow := do
  let sa ← (by_start fg rows).lookup k
  let pg ← (by_progress fg rows).lookup k
  let tm ← (by_time fg rows).lookup k
  let nr ← if is_eval then some none else ((by_new_reward fg rows nrs).lookup k).map some
  let th ← (by_throttle fg rows).lookup k
  let rwd ← if is_eval then some none else ((by_reward fg rows).lookup k).map some
  some
    { fgval := k.1
      episode := k.2
      steps := st
      start_at := sa
      progress := pg
      time := tm
      new_reward := nr
      throttle := th
      reward := rwd
      time_if_complete := tm * 100 / pg
      reward_if_complete := rwd.map (fun r => r * 100 / pg)
      quintile := none
      timestamp := none }

def aggBase (fg : Row → ℤ) (rows : List Row) (nrs : List ℚ) (is_eval : Bool) : List AggRow :=
  (by_steps fg rows).filterMap (fun kst => aggRowOf fg rows nrs is_eval kst.1 kst.2)

def aggWithQ (fg : Row → ℤ) (rows : List Row) (nrs : List ℚ) (is_eval : Bool) : List AggRow :=
  if is_eval then aggBase fg rows nrs is_eval
  else (aggBase fg rows nrs is_eval).map (fun ar =>
    { ar with quintile := some (pdCut5Label
        (npMinQ ((aggBase fg rows nrs is_eval).map (fun a => (a.episode : ℚ))))
        (npMaxQ ((aggBase fg rows nrs is_eval).map (fun a => (a.episode : ℚ))))
        (ar.episode : ℚ)) })

def aggResult (fg : Row → ℤ) (rows : List Row) (nrs : List ℚ)
    (add_timestamp is_eval : Bool) : List AggRow :=
  if add_timestamp then
    (aggWithQ fg rows nrs is_eval).map (fun ar =>
      { ar with timestamp := (by_timestampMax fg rows).lookup (ar.fgval, ar.episode) })
  else aggWithQ fg rows nrs is_eval

/-- The output of `simulation_agg`: the aggregated frame, the input frame as
left by the call (it may have gained a `new_reward` column, line 192), and
whether the "new reward not found" warning was printed (line 191). -/
structure AggOut where
  result : List AggRow
  table : Table
  warned : Bool
  deriving Repr, DecidableEq

/-- `AnalysisUtils.simulation_agg(panda, firstgroup, add_timestamp, is_eval)`.
The `firstgroup` column name is modelled by the selector `fg` (e.g.
`Row.iteration` for the default "iteration"). -/
def simulation_agg (fg : Row → ℤ) (panda : Table) (add_timestamp is_eval : Bool) : AggOut :=
  let panda2 := mutateNR panda is_eval
  { result := aggResult fg panda2.rows (panda2.new_reward.getD []) add_timestamp is_eval
    table := panda2
    warned := !is_eval && panda.new_reward.isNone }

/-! ## NewRewardUtils.df_to_params closest-waypoint selection (lines 530-563) -/

/-- Modelled from the spec: `GeometryUtils.get_a_point_on_a_line_closest_to_point`
of `deepracer/tracks/track_utils.py` is not among the given sources.  Per spec
section 4.4 it returns the perpendicular projection of the point onto the line
through the two given waypoints (degenerate equal endpoints would divide by
zero; rational division by zero yields 0 here, and that path is excluded by the
duplicate-waypoint adjustments in the caller). -/
def get_a_point_on_a_line_closest_to_point (l1 l2 p : ℚ × ℚ) : ℚ × ℚ :=
  (l1.1 + (((p.1 - l1.1) * (l2.1 - l1.1) + (p.2 - l1.2) * (l2.2 - l1.2)) /
      ((l2.1 - l1.1) * (l2.1 - l1.1) + (l2.2 - l1.2) * (l2.2 - l1.2))) * (l2.1 - l1.1),
   l1.2 + (((p.1 - l1.1) * (l2.1 - l1.1) + (p.2 - l1.2) * (l2.2 - l1.2)) /
      ((l2.1 - l1.1) * (l2.1 - l1.1) + (l2.2 - l1.2) * (l2.2 - l1.2))) * (l2.2 - l1.2))

/-- Modelled from the spec: `GeometryUtils.is_point_roughly_on_the_line` —
whether a point already known to be on the line through the two waypoints lies
on the segment between them, i.e. within the segment's coordinate ranges. -/
def is_point_roughly_on_the_line (l1 l2 : ℚ × ℚ) (x y : ℚ) : Bool :=
  (decide (min l1.1 l2.1 ≤ x) && decide (x ≤ max l1.1 l2.1)) &&
  (decide (min l1.2 l2.2 ≤ y) && decide (y ≤ max l1.2 l2.2))

/-- Python list indexing with negative-index wraparound (`waypoints[-1]` is the
last waypoint).  Out-of-range indices (which would raise IndexError) return a
junk value and are not reached on the modelled paths. -/
def pyIdx (ws : List (ℚ × ℚ)) (i : ℤ) : ℚ × ℚ :=
  if i < 0 then ws.getD (ws.length - (-i).toNat) (0, 0) else ws.getD i.toNat (0, 0)

/-- The `closest_waypoints` selection of `NewRewardUtils.df_to_params`
(lines 533-563): take the recorded closest waypoint, step the `before` index
back (skipping an identical duplicate waypoint) and the `after` index forward
modulo the track length (again skipping a duplicate); project the car position
onto the line through `before` and `waypoint`; if the projection lies on that
segment the pair is `[before, waypoint]`, otherwise `[waypoint, after]`. -/
def df_to_params_closest_waypoints (waypoints : List (ℚ × ℚ)) (closest_waypoint : ℤ)
    (x y : ℚ) : ℤ × ℤ :=
  let w := closest_waypoint
  let before0 := w - 1
  let before := if pyIdx waypoints w = pyIdx waypoints before0 then before0 - 1 else before0
  let n : ℤ := (waypoints.length : ℤ)
  let after0 := (w + 1) % n
  let after := if pyIdx waypoints w = pyIdx waypoints after0 then (after0 + 1) % n else after0
  let cp := get_a_point_on_a_line_closest_to_point
    (pyIdx waypoints before) (pyIdx waypoints w) (x, y)
  if is_point_roughly_on_the_line (pyIdx waypoints before) (pyIdx waypoints w) cp.1 cp.2
  then (before, w) else (w, after)

/-! ## ActionBreakdownUtils.determine_action_names (lines 609-618) -/

/-- A Python value as needed to evaluate the first statement of
`determine_action_names`: either a plain list (not callable) or a function. -/
inductive PyVal where
  | pyList (xs : List String)
  | pyFunc
  deriving Repr, DecidableEq

def pyIsCallable : PyVal → Bool
  | PyVal.pyList _ => false
  | PyVal.pyFunc => true

/-- Python call semantics: calling a value that is not a function raises
TypeError.  (The callable case returns the junk value `[]`; in the modelled
program the called value is always a plain list.) -/
def pyCallNoArgs (v : PyVal) : Except PyErr (List String) :=
  if pyIsCallable v then Except.ok [] else Except.error PyErr.typeError

/-- The `keys` attribute of a pandas `DataFrameGroupBy`: the grouping-column
argument itself — here the plain list of column names, not a method. -/
def groupbyKeysAttr : PyVal := PyVal.pyList ["action", "steer", "throttle"]

/-- Python 3 `sorted(iterable, *, key=None, reverse=False)`: `key` is
keyword-only, so any second POSITIONAL argument (such as a comparator function)
raises TypeError; with a single positional argument the iterable is sorted in
its default order. -/
def pySorted (numPositionalArgs : ℕ) (xs : List String) : Except PyErr (List String) :=
  if numPositionalArgs ≤ 1 then Except.ok (xs.mergeSort (fun a b => !(decide (b < a))))
  else Except.error PyErr.typeError

/-- `ActionBreakdownUtils.determine_action_names(df)` (lines 610-618) evaluates
`sorted(df.groupby(["action", "steer", "throttle"]).keys(), lambda x: x[0])`.
Following Python evaluation order, the argument `... .keys()` is evaluated
first: `keys` is the grouping-column list attribute and calling it raises
TypeError; had it produced a value, `sorted` applied to two positional
arguments (the iterable and the lambda) would raise TypeError as well, so the
action-name formatting of lines 613-618 is never reached (its result type is
all the model keeps of it). -/
def determine_action_names (df : List (ℚ × ℚ × ℚ)) : Except PyErr (List String) := do
  let keys ← pyCallNoArgs groupbyKeysAttr
  let sortedKeys ← pySorted 2 keys
  Except.ok (sortedKeys ++ (df.map (fun _ => "")))

/-! ## Concrete instances and expected aggregation values -/

/-- A file system with a single base log file containing one well-formed trace
line and no rollover files. -/
def fsC2 : FileSys := fun p =>
  if p = "log" then some ["SIM_TRACE_LOG:0,1,2\trest of line"] else none

/-- The default `firstgroup="iteration"` column selector. -/
def byIteration : Row → ℤ := Row.iteration

/-- A concrete trace row (iteration, episode, steps, progress, throttle,
timestamp, reward, closest_waypoint; the remaining columns fixed) for
instantiating the aggregation theorems. -/
def sampleRow (it ep st : ℤ) (pr th ts rwd : ℚ) (cw : ℤ) : Row :=
  Row.mk it ep st 0 0 0 0 th 0 rwd 0 "True" pr cw 10 ts

def pandaC9 : Table := ⟨[sampleRow 1 0 1 50 2 100 1 10], none⟩

/-- The value of one pre-derived-columns aggregated row, stated directly per
group key. -/
def expectedAgg (fg : Row → ℤ) (rows : List Row) (nrs : List ℚ) (is_eval : Bool)
    (k : ℤ × ℤ) : AggRow :=
  { fgval := k.1
    episode := k.2
    steps := npMaxI ((groupOf fg rows k).map Row.steps)
    start_at := (((groupOf fg rows k).head?).map Row.closest_waypoint).getD 0
    progress := npMaxQ ((groupOf fg rows k).map Row.progress)
    time := npMaxQ ((groupOf fg rows k).map Row.timestamp)
      - npMinQ ((groupOf fg rows k).map Row.timestamp)
    new_reward := if is_eval then none
      else some (npSumQ (((rows.zip nrs).filter (fun rn => keyOf fg rn.1 == k)).map Prod.snd))
    throttle := npMeanQ ((groupOf fg rows k).map Row.throttle)
    reward := if is_eval then none else some (npSumQ ((groupOf fg rows k).map Row.reward))
    time_if_complete := (npMaxQ ((groupOf fg rows k).map Row.timestamp)
        - npMinQ ((groupOf fg rows k).map Row.timestamp)) * 100
      / npMaxQ ((groupOf fg rows k).map Row.progress)
    reward_if_complete := if is_eval then none
      else some (npSumQ ((groupOf fg rows k).map Row.reward) * 100
        / npMaxQ ((groupOf fg rows k).map Row.progress))
    quintile := none
    timestamp := none }

/-- The value of one fully aggregated row, quintile and optional timestamp
columns included. -/
def expectedFinal (fg : Row → ℤ) (rows : List Row) (nrs : List ℚ)
    (add_timestamp is_eval : Bool) (k : ℤ × ℤ) : AggRow :=
  { expectedAgg fg rows nrs is_eval k with
    quintile := if is_eval then none
      else some (pdCut5Label
        (npMinQ ((groupKeys fg rows).map (fun k2 => ((k2.2 : ℚ)))))
        (npMaxQ ((groupKeys fg rows).map (fun k2 => ((k2.2 : ℚ)))))
        ((k.2 : ℚ))),
    timestamp := if add_timestamp
      then some (npMaxQ ((groupOf fg rows k).map Row.timestamp)) else none }

def pandaC3 : Table :=
  ⟨[sampleRow 1 0 1 50 2 100 1 10,
    sampleRow 1 0 2 80 3 (207 / 2) 2 12], none⟩

def pandaC5 : Table :=
  ⟨[sampleRow 1 0 1 0 2 100 1 10,
    sampleRow 1 0 2 0 3 103 2 12], none⟩

def pandaC6 : Table :=
  ⟨[sampleRow 1 0 1 50 2 100 1 10,
    sampleRow 1 1 1 50 2 101 1 10,
    sampleRow 1 2 1 50 2 102 1 10,
    sampleRow 1 3 1 50 2 103 1 10,
    sampleRow 1 10 1 50 2 104 1 10], none⟩

def dataC1 : List String :=
  ["placeholder one", "placeholder two",
   "0,1,0.5,0.25,1.5,-15.0,2.5,3,1.75,False,True,12.5,7,17.67,1595000000.5"]

/-! ## Helper lemmas -/

theorem lookup_map_key {β : Type} (g : ℤ × ℤ → β) :
    ∀ (keys : List (ℤ × ℤ)) (k : ℤ × ℤ), k ∈ keys →
      (keys.map (fun x => (x, g x))).lookup k = some (g k) := by
  intro keys
  induction keys with
  | nil => intro k h; cases h
  | cons a as ih =>
    intro k hk
    by_cases h : k = a
    · subst h
      simp [List.lookup]
    · rcases List.mem_cons.mp hk with h1 | h1
      · exact absurd h1 h
      · have hba : (k == a) = false := beq_false_of_ne h
        simp [List.lookup, hba]
        exact ih k h1

theorem filterMap_eq_map_of {α β : Type} (f : α → Option β) (g : α → β) :
    ∀ (l : List α), (∀ x ∈ l, f x = some (g x)) → l.filterMap f = l.map g := by
  intro l
  induction l with
  | nil => intro _; rfl
  | cons a as ih =>
    intro h
    have ha := h a (List.mem_cons_self a as)
    simp [List.filterMap_cons, ha, ih (fun x hx => h x (List.mem_cons_of_mem a hx))]

theorem mutateNR_rows (p : Table) (ev : Bool) : (mutateNR p ev).rows = p.rows := by
  unfold mutateNR
  split <;> rfl

theorem mutateNR_idem (p : Table) (ev : Bool) :
    mutateNR (mutateNR p ev) ev = mutateNR p ev := by
  by_cases h : (!ev && p.new_reward.isNone) = true
  · have h1 : mutateNR p ev = ⟨p.rows, some (p.rows.map Row.reward)⟩ := by
      unfold mutateNR
      rw [if_pos h]
    rw [h1]
    unfold mutateNR
    simp
  · have h1 : mutateNR p ev = p := by
      unfold mutateNR
      rw [if_neg h]
    rw [h1, h1]

/-! ## Claim C10 -/

/-- Claim C10: as sourced, `determine_action_names` cannot complete
successfully for any input: the sort expression raises a TypeError (evaluating
`.keys()` calls the non-callable GroupBy `keys` attribute, and the comparator
lambda passed positionally to `sorted` is likewise rejected by the standard
sort API), so no sorted list of action-name strings is ever returned. -/
theorem determine_action_names_raises_type_error (df : List (ℚ × ℚ × ℚ)) :
    determine_action_names df = Except.error PyErr.typeError := rfl

/-! ## Claim C2 -/

/-- Claim C2 (code bug): the base file holds one SIM_TRACE_LOG line whose
extracted fields are "0,1,2" — `load_single_file` RETURNS them (first
component) while leaving the empty caller list untouched (second component),
because `if not data:` rebinds an empty list argument to a fresh list.
`load_data` discards the return value and relies on the documented in-place
append, so it produces the empty list instead of the trace lines the claim
(and the docstring of `load_single_file`) promises. -/
theorem load_data_loses_trace_lines :
    load_data fsC2 "log" 5 = Except.ok [] ∧
    load_single_file fsC2 "log" [] = Except.ok (["0,1,2"], []) := by
  constructor
  · with_unfolding_all rfl
  · with_unfolding_all rfl

/-! ## Claim C4 -/

/-- Claim C4: for a nonnegative episode number and a positive
episodes-per-iteration count, the derived iteration column equals
floor(episode / episodes_per_iteration) + 1. -/
theorem iteration_is_floor_div (episode epi : ℤ) (h0 : 0 ≤ episode) (h1 : 0 < epi) :
    iterationOf episode epi = ⌊(episode : ℚ) / (epi : ℚ)⌋ + 1 := by
  unfold iterationOf pyTrunc
  congr 1
  have hq0 : 0 ≤ (episode : ℚ) / (epi : ℚ) := by
    apply div_nonneg
    · exact_mod_cast h0
    · have : (0 : ℚ) < (epi : ℚ) := by exact_mod_cast h1
      exact le_of_lt this
  have hnum : 0 ≤ ((episode : ℚ) / (epi : ℚ)).num := Rat.num_nonneg.mpr hq0
  have hden : 0 ≤ (((episode : ℚ) / (epi : ℚ)).den : ℤ) := Int.ofNat_nonneg _
  rw [Rat.floor_def, Int.tdiv_eq_ediv hnum hden]

/-- Claim C4 witness: with episodes_per_iteration = 20, episodes 0 and 19 land
in iteration 1 and episode 20 lands in iteration 2. -/
theorem iteration_is_floor_div_examples :
    iterationOf 0 20 = 1 ∧ iterationOf 19 20 = 1 ∧ iterationOf 20 20 = 2 := by
  refine ⟨?_, ?_, ?_⟩
  · rw [iteration_is_floor_div 0 20 (by norm_num) (by norm_num)]
    with_unfolding_all decide
  · rw [iteration_is_floor_div 19 20 (by norm_num) (by norm_num)]
    with_unfolding_all decide
  · rw [iteration_is_floor_div 20 20 (by norm_num) (by norm_num)]
    with_unfolding_all decide

/-! ## Claim C7 -/

/-- Claim C7: invoking `simulation_agg` twice with the same arguments yields
identical aggregated frames — including across the in-place `new_reward`
mutation the first call may apply to the table, so the second invocation on
the table as the first call left it returns the same result and leaves the
table unchanged. -/
theorem simulation_agg_idempotent (fg : Row → ℤ) (panda : Table) (ats ev : Bool) :
    (simulation_agg fg (simulation_agg fg panda ats ev).table ats ev).result
      = (simulation_agg fg panda ats ev).result ∧
    (simulation_agg fg (simulation_agg fg panda ats ev).table ats ev).table
      = (simulation_agg fg panda ats ev).table := by
  unfold simulation_agg
  simp [mutateNR_idem]

/-! ## Claim C9 -/

/-- Claim C9: when `is_eval` is false and the input frame has no `new_reward`
column, `simulation_agg` mutates its input: the frame it leaves behind has a
`new_reward` column copied from `reward`, every other column unchanged, and is
therefore not equal to the frame that was passed in. -/
theorem simulation_agg_mutates_input (fg : Row → ℤ) (panda : Table) (ats : Bool)
    (h : panda.new_reward = none) :
    (simulation_agg fg panda ats false).table.rows = panda.rows ∧
    (simulation_agg fg panda ats false).table.new_reward
      = some (panda.rows.map Row.reward) ∧
    (simulation_agg fg panda ats false).table ≠ panda := by
  have htab : (simulation_agg fg panda ats false).table
      = ⟨panda.rows, some (panda.rows.map Row.reward)⟩ := by
    unfold simulation_agg mutateNR
    simp [h]
  refine ⟨by rw [htab], by rw [htab], ?_⟩
  rw [htab]
  intro hc
  have := congrArg Table.new_reward hc
  rw [h] at this
  simp at this

/-- Claim C9 witness: on a concrete one-row frame without `new_reward`, the
aggregation call hands back a mutated table with the same rows. -/
theorem simulation_agg_mutates_input_example :
    (simulation_agg byIteration pandaC9 false false).table ≠ pandaC9 ∧
    (simulation_agg byIteration pandaC9 false false).table.rows = pandaC9.rows := by
  obtain ⟨h1, h2, h3⟩ := simulation_agg_mutates_input byIteration pandaC9 false rfl
  exact ⟨h3, h1⟩

/-! ## The aggregation collapsed: one explicit record per group -/

theorem aggBase_spec (fg : Row → ℤ) (rows : List Row) (nrs : List ℚ) (ev : Bool) :
    aggBase fg rows nrs ev = (groupKeys fg rows).map (expectedAgg fg rows nrs ev) := by
  unfold aggBase by_steps
  rw [List.filterMap_map]
  apply filterMap_eq_map_of
  intro k hk
  have h1 : (by_start fg rows).lookup k
      = some ((((groupOf fg rows k).head?).map Row.closest_waypoint).getD 0) :=
    lookup_map_key _ _ _ hk
  have h2 : (by_progress fg rows).lookup k
      = some (npMaxQ ((groupOf fg rows k).map Row.progress)) :=
    lookup_map_key _ _ _ hk
  have h3 : (by_time fg rows).lookup k
      = some (npMaxQ ((groupOf fg rows k).map Row.timestamp)
        - npMinQ ((groupOf fg rows k).map Row.timestamp)) :=
    lookup_map_key _ _ _ hk
  have h4 : (by_new_reward fg rows nrs).lookup k
      = some (npSumQ (((rows.zip nrs).filter
        (fun rn => keyOf fg rn.1 == k)).map Prod.snd)) :=
    lookup_map_key _ _ _ hk
  have h5 : (by_throttle fg rows).lookup k
      = some (npMeanQ ((groupOf fg rows k).map Row.throttle)) :=
    lookup_map_key _ _ _ hk
  have h6 : (by_reward fg rows).lookup k
      = some (npSumQ ((groupOf fg rows k).map Row.reward)) :=
    lookup_map_key _ _ _ hk
  cases ev <;>
    simp [Function.comp, aggRowOf, h1, h2, h3, h4, h5, h6, expectedAgg]

theorem aggResult_spec (fg : Row → ℤ) (rows : List Row) (nrs : List ℚ) (ats ev : Bool) :
    aggResult fg rows nrs ats ev
      = (groupKeys fg rows).map (expectedFinal fg rows nrs ats ev) := by
  have heps : (aggBase fg rows nrs ev).map (fun a => ((a.episode : ℚ)))
      = (groupKeys fg rows).map (fun k2 => ((k2.2 : ℚ))) := by
    rw [aggBase_spec, List.map_map]
    rfl
  unfold aggResult aggWithQ
  rw [heps, aggBase_spec]
  cases ats <;> cases ev <;> simp only [if_true, if_false, Bool.true_eq_false,
    Bool.false_eq_true, reduceIte]
  · rw [List.map_map]
    apply List.map_congr_left
    intro k hk
    simp [Function.comp, expectedFinal, expectedAgg]
  · apply List.map_congr_left
    intro k hk
    simp [expectedFinal, expectedAgg]
  · rw [List.map_map, List.map_map]
    apply List.map_congr_left
    intro k hk
    have h7 : (by_timestampMax fg rows).lookup k
        = some (npMaxQ ((groupOf fg rows k).map Row.timestamp)) :=
      lookup_map_key _ _ _ hk
    simp [Function.comp, expectedFinal, expectedAgg, h7]
  · rw [List.map_map]
    apply List.map_congr_left
    intro k hk
    have h7 : (by_timestampMax fg rows).lookup k
        = some (npMaxQ ((groupOf fg rows k).map Row.timestamp)) :=
      lookup_map_key _ _ _ hk
    simp [Function.comp, expectedFinal, expectedAgg, h7]

/-! ## Claim C3 -/

theorem groupOf_head_isSome (fg : Row → ℤ) (rows : List Row) (k : ℤ × ℤ)
    (hk : k ∈ groupKeys fg rows) : ∃ r0, (groupOf fg rows k).head? = some r0 := by
  have h1 : k ∈ (rows.map (keyOf fg)).dedup :=
    (List.mergeSort_perm ((rows.map (keyOf fg)).dedup) keyLE).mem_iff.mp hk
  have h2 : k ∈ rows.map (keyOf fg) := List.mem_dedup.mp h1
  obtain ⟨r, hr, hkr⟩ := List.mem_map.mp h2
  have hmem : r ∈ groupOf fg rows k := by
    simp [groupOf, List.mem_filter, hr, hkr]
  cases hgrp : (groupOf fg rows k) with
  | nil => rw [hgrp] at hmem; cases hmem
  | cons a l => exact ⟨a, rfl⟩

theorem zip_map_self_filter_sum (fg : Row → ℤ) (f : Row → ℚ) (k : ℤ × ℤ) :
    ∀ (rows : List Row),
      npSumQ (((rows.zip (rows.map f)).filter (fun rn => keyOf fg rn.1 == k)).map Prod.snd)
        = npSumQ ((groupOf fg rows k).map f) := by
  intro rows
  induction rows with
  | nil => rfl
  | cons r rs ih =>
    unfold groupOf at ih ⊢
    cases h : keyOf fg r == k <;>
      simp only [List.map_cons, List.zip_cons_cons, List.filter_cons, h] <;>
      simp [npSumQ, h] at ih ⊢ <;> rw [ih]

/-- Claim C3: grouping by (firstgroup, episode), each group key yields exactly
one aggregated row carrying the maximum step count, the group's first
closest_waypoint value as start_at, the maximum progress, elapsed time as
max − min of the timestamps, the mean throttle, and — outside evaluation
mode — the reward sum and the new_reward sum, the latter falling back to the
reward column (with the warning) when the `new_reward` column is absent. -/
theorem simulation_agg_group_stats (fg : Row → ℤ) (panda : Table) (ats ev : Bool)
    (k : ℤ × ℤ) (hk : k ∈ groupKeys fg panda.rows) :
    ∃ ar ∈ (simulation_agg fg panda ats ev).result,
      ar.fgval = k.1 ∧ ar.episode = k.2 ∧
      ar.steps = npMaxI ((groupOf fg panda.rows k).map Row.steps) ∧
      (∃ r0, (groupOf fg panda.rows k).head? = some r0
        ∧ ar.start_at = r0.closest_waypoint) ∧
      ar.progress = npMaxQ ((groupOf fg panda.rows k).map Row.progress) ∧
      ar.time = npMaxQ ((groupOf fg panda.rows k).map Row.timestamp)
        - npMinQ ((groupOf fg panda.rows k).map Row.timestamp) ∧
      ar.throttle = npMeanQ ((groupOf fg panda.rows k).map Row.throttle) ∧
      (ev = false →
        ar.reward = some (npSumQ ((groupOf fg panda.rows k).map Row.reward)) ∧
        (panda.new_reward = none →
          ar.new_reward = some (npSumQ ((groupOf fg panda.rows k).map Row.reward)) ∧
          (simulation_agg fg panda ats ev).warned = true) ∧
        (∀ nrl, panda.new_reward = some nrl →
          ar.new_reward = some (npSumQ (((panda.rows.zip nrl).filter
            (fun rn => keyOf fg rn.1 == k)).map Prod.snd)))) := by
  have hres : (simulation_agg fg panda ats ev).result
      = (groupKeys fg panda.rows).map
        (expectedFinal fg panda.rows ((mutateNR panda ev).new_reward.getD []) ats ev) := by
    have h0 : (simulation_agg fg panda ats ev).result
        = aggResult fg (mutateNR panda ev).rows
          ((mutateNR panda ev).new_reward.getD []) ats ev := rfl
    rw [h0, aggResult_spec, mutateNR_rows]
  refine ⟨expectedFinal fg panda.rows ((mutateNR panda ev).new_reward.getD []) ats ev k,
    ?_, ?_⟩
  · rw [hres]
    exact List.mem_map_of_mem _ hk
  · obtain ⟨r0, hr0⟩ := groupOf_head_isSome fg panda.rows k hk
    refine ⟨rfl, rfl, rfl, ⟨r0, hr0, ?_⟩, rfl, rfl, rfl, ?_⟩
    · show (((groupOf fg panda.rows k).head?).map Row.closest_waypoint).getD 0
        = r0.closest_waypoint
      rw [hr0]
      rfl
    · intro hev
      subst hev
      refine ⟨rfl, ?_, ?_⟩
      · intro hnone
        have hnr : (mutateNR panda false).new_reward.getD [] = panda.rows.map Row.reward := by
          unfold mutateNR
          simp [hnone]
        constructor
        · show some (npSumQ (((panda.rows.zip
              ((mutateNR panda false).new_reward.getD [])).filter
              (fun rn => keyOf fg rn.1 == k)).map Prod.snd))
            = some (npSumQ ((groupOf fg panda.rows k).map Row.reward))
          rw [hnr, zip_map_self_filter_sum]
        · show (!(false : Bool) && panda.new_reward.isNone) = true
          simp [hnone]
      · intro nrl hsome
        have hnr : (mutateNR panda false).new_reward.getD [] = nrl := by
          unfold mutateNR
          simp [hsome]
        show some (npSumQ (((panda.rows.zip
            ((mutateNR panda false).new_reward.getD [])).filter
            (fun rn => keyOf fg rn.1 == k)).map Prod.snd))
          = some (npSumQ (((panda.rows.zip nrl).filter
            (fun rn => keyOf fg rn.1 == k)).map Prod.snd))
        rw [hnr]

/-- Claim C3 witness: a two-row group sharing (iteration=1, episode=0) with
progress values [50, 80] and timestamps [100.0, 103.5] aggregates to max
progress 80 and elapsed time 3.5. -/
theorem simulation_agg_group_stats_example :
    ∃ ar ∈ (simulation_agg byIteration pandaC3 false false).result,
      ar.progress = 80 ∧ ar.time = 7 / 2 := by
  obtain ⟨ar, hmem, hfg, hep, hst, hstart, hprog, htime, hthr, hrest⟩ :=
    simulation_agg_group_stats byIteration pandaC3 false false (1, 0)
      (by with_unfolding_all decide)
  refine ⟨ar, hmem, ?_, ?_⟩
  · rw [hprog]
    with_unfolding_all decide
  · rw [htime]
    with_unfolding_all decide

/-! ## Claim C5 -/

/-- Claim C5: every group — a zero-progress group included — produces exactly
one aggregated row, and on it `time_if_complete = time * 100 / progress`
(and, outside evaluation mode, `reward_if_complete = reward * 100 / progress`)
is computed with no guard on `progress`: the division is performed
unconditionally (total rational division here; IEEE arithmetic would produce
an infinity or NaN rather than raising). -/
theorem simulation_agg_unguarded_completion_division (fg : Row → ℤ) (panda : Table)
    (ats ev : Bool) :
    (simulation_agg fg panda ats ev).result.length = (groupKeys fg panda.rows).length ∧
    ∀ ar ∈ (simulation_agg fg panda ats ev).result,
      ar.time_if_complete = ar.time * 100 / ar.progress ∧
      (ev = false → ar.reward_if_complete = ar.reward.map (fun r => r * 100 / ar.progress)) := by
  have hres : (simulation_agg fg panda ats ev).result
      = (groupKeys fg panda.rows).map
        (expectedFinal fg panda.rows ((mutateNR panda ev).new_reward.getD []) ats ev) := by
    have h0 : (simulation_agg fg panda ats ev).result
        = aggResult fg (mutateNR panda ev).rows
          ((mutateNR panda ev).new_reward.getD []) ats ev := rfl
    rw [h0, aggResult_spec, mutateNR_rows]
  constructor
  · rw [hres, List.length_map]
  · intro ar hmem
    rw [hres] at hmem
    obtain ⟨k, hk, rfl⟩ := List.mem_map.mp hmem
    constructor
    · rfl
    · intro hev
      subst hev
      rfl

/-- Claim C5 witness: a frame whose single group has progress 0 throughout is
not rejected — its row is produced and the division is performed on it. -/
theorem simulation_agg_unguarded_completion_division_example :
    ∃ ar ∈ (simulation_agg byIteration pandaC5 false false).result,
      ar.progress = 0 ∧ ar.time_if_complete = ar.time * 100 / ar.progress := by
  obtain ⟨hlen, hall⟩ :=
    simulation_agg_unguarded_completion_division byIteration pandaC5 false false
  have hm : ∃ ar ∈ (simulation_agg byIteration pandaC5 false false).result,
      ar.progress = 0 := by
    with_unfolding_all decide
  obtain ⟨ar, hmem, hp⟩ := hm
  exact ⟨ar, hmem, hp, (hall ar hmem).1⟩

/-! ## Claim C6 -/

theorem pdCut5Label_spec (mn mx v : ℚ) (h : mn < mx) :
    (pdCut5Label mn mx v = "1st" ↔ v ≤ mn + (mx - mn) / 5) ∧
    (pdCut5Label mn mx v = "2nd" ↔
      (mn + (mx - mn) / 5 < v ∧ v ≤ mn + 2 * ((mx - mn) / 5))) ∧
    (pdCut5Label mn mx v = "3rd" ↔
      (mn + 2 * ((mx - mn) / 5) < v ∧ v ≤ mn + 3 * ((mx - mn) / 5))) ∧
    (pdCut5Label mn mx v = "4th" ↔
      (mn + 3 * ((mx - mn) / 5) < v ∧ v ≤ mn + 4 * ((mx - mn) / 5))) ∧
    (pdCut5Label mn mx v = "5th" ↔ mn + 4 * ((mx - mn) / 5) < v) := by
  have hne : ¬ (mn = mx) := ne_of_lt h
  have hw : 0 < (mx - mn) / 5 := by linarith
  unfold pdCut5Label
  rw [if_neg hne]
  split_ifs with h1 h2 h3 h4
  · exact ⟨iff_of_true rfl h1,
      iff_of_false (by decide) (fun hc => absurd hc.1 (not_lt.mpr h1)),
      iff_of_false (by decide) (fun hc => by linarith [hc.1]),
      iff_of_false (by decide) (fun hc => by linarith [hc.1]),
      iff_of_false (by decide) (fun hc => by linarith)⟩
  · exact ⟨iff_of_false (by decide) h1,
      iff_of_true rfl ⟨not_le.mp h1, h2⟩,
      iff_of_false (by decide) (fun hc => absurd hc.1 (not_lt.mpr h2)),
      iff_of_false (by decide) (fun hc => by linarith [hc.1]),
      iff_of_false (by decide) (fun hc => by linarith)⟩
  · exact ⟨iff_of_false (by decide) h1,
      iff_of_false (by decide) (fun hc => absurd hc.2 h2),
      iff_of_true rfl ⟨not_le.mp h2, h3⟩,
      iff_of_false (by decide) (fun hc => absurd hc.1 (not_lt.mpr h3)),
      iff_of_false (by decide) (fun hc => by linarith)⟩
  · exact ⟨iff_of_false (by decide) h1,
      iff_of_false (by decide) (fun hc => absurd hc.2 h2),
      iff_of_false (by decide) (fun hc => absurd hc.2 h3),
      iff_of_true rfl ⟨not_le.mp h3, h4⟩,
      iff_of_false (by decide) (fun hc => absurd hc (not_lt.mpr h4))⟩
  · exact ⟨iff_of_false (by decide) h1,
      iff_of_false (by decide) (fun hc => absurd hc.2 h2),
      iff_of_false (by decide) (fun hc => absurd hc.2 h3),
      iff_of_false (by decide) (fun hc => absurd hc.2 h4),
      iff_of_true rfl (not_le.mp h4)⟩

/-- Claim C6 (amended): outside evaluation mode every aggregated row carries a
quintile label from ['1st', '2nd', '3rd', '4th', '5th'], determined by
EQUAL-WIDTH binning of the episode column (pandas `cut`): with mn/mx the
minimum/maximum of the result's episode column, the value range is divided
into five equal-length right-closed intervals and a row's label is the
interval holding its episode — buckets span equal shares of the episode VALUE
RANGE, not equal shares of the episodes. -/
theorem simulation_agg_quintile_equal_width (fg : Row → ℤ) (panda : Table) (ats : Bool) :
    (∀ ar ∈ (simulation_agg fg panda ats false).result,
      ar.quintile = some (pdCut5Label
        (npMinQ (((simulation_agg fg panda ats false).result).map
          (fun a => ((a.episode : ℚ)))))
        (npMaxQ (((simulation_agg fg panda ats false).result).map
          (fun a => ((a.episode : ℚ)))))
        ((ar.episode : ℚ)))) ∧
    (∀ mn mx v : ℚ, mn < mx →
      (pdCut5Label mn mx v = "1st" ↔ v ≤ mn + (mx - mn) / 5) ∧
      (pdCut5Label mn mx v = "2nd" ↔
        (mn + (mx - mn) / 5 < v ∧ v ≤ mn + 2 * ((mx - mn) / 5))) ∧
      (pdCut5Label mn mx v = "3rd" ↔
        (mn + 2 * ((mx - mn) / 5) < v ∧ v ≤ mn + 3 * ((mx - mn) / 5))) ∧
      (pdCut5Label mn mx v = "4th" ↔
        (mn + 3 * ((mx - mn) / 5) < v ∧ v ≤ mn + 4 * ((mx - mn) / 5))) ∧
      (pdCut5Label mn mx v = "5th" ↔ mn + 4 * ((mx - mn) / 5) < v)) := by
  constructor
  · have hres : (simulation_agg fg panda ats false).result
        = (groupKeys fg panda.rows).map
          (expectedFinal fg panda.rows ((mutateNR panda false).new_reward.getD []) ats false) := by
      have h0 : (simulation_agg fg panda ats false).result
          = aggResult fg (mutateNR panda false).rows
            ((mutateNR panda false).new_reward.getD []) ats false := rfl
      rw [h0, aggResult_spec, mutateNR_rows]
    have heps2 : ((simulation_agg fg panda ats false).result).map (fun a => ((a.episode : ℚ)))
        = (groupKeys fg panda.rows).map (fun k2 => ((k2.2 : ℚ))) := by
      rw [hres, List.map_map]
      rfl
    intro ar hmem
    rw [hres] at hmem
    obtain ⟨k, hk, rfl⟩ := List.mem_map.mp hmem
    rw [heps2]
    rfl
  · intro mn mx v h
    exact pdCut5Label_spec mn mx v h

/-- Claim C6 counterexample: on five single-row groups with episodes
0, 1, 2, 3, 10 the produced labels are [1st, 1st, 1st, 2nd, 5th]: the '1st'
bucket holds three of the five episodes and the '3rd' bucket holds none, so
the partition does NOT give each bucket an equal share of the episodes (a
5-bucket QUANTILE partition of five distinct episodes would put exactly one in
each bucket). -/
theorem simulation_agg_quintile_counterexample :
    ((simulation_agg byIteration pandaC6 false false).result.map AggRow.quintile)
      = [some "1st", some "1st", some "1st", some "2nd", some "5th"] ∧
    ((simulation_agg byIteration pandaC6 false false).result.map AggRow.quintile).count
      (some "1st") = 3 ∧
    ((simulation_agg byIteration pandaC6 false false).result.map AggRow.quintile).count
      (some "3rd") = 0 := by
  refine ⟨?_, ?_, ?_⟩ <;> with_unfolding_all decide

/-- Claim C6 witness: instantiating the equal-width characterization on the
concrete five-episode frame (episode range [0, 10]). -/
theorem simulation_agg_quintile_equal_width_example :
    (∃ ar ∈ (simulation_agg byIteration pandaC6 false false).result,
      ar.quintile = some (pdCut5Label 0 10 ((ar.episode : ℚ)))) ∧
    (pdCut5Label 0 10 0 = "1st" ↔ (0 : ℚ) ≤ 0 + (10 - 0) / 5) := by
  obtain ⟨hall, hiff⟩ := simulation_agg_quintile_equal_width byIteration pandaC6 false
  constructor
  · have hmn : npMinQ (((simulation_agg byIteration pandaC6 false false).result).map
        (fun a => ((a.episode : ℚ)))) = 0 := by
      with_unfolding_all decide
    have hmx : npMaxQ (((simulation_agg byIteration pandaC6 false false).result).map
        (fun a => ((a.episode : ℚ)))) = 10 := by
      with_unfolding_all decide
    have hm : ∃ ar ∈ (simulation_agg byIteration pandaC6 false false).result,
        ar.episode = 0 := by
      with_unfolding_all decide
    obtain ⟨ar, hmem, _⟩ := hm
    have hq := hall ar hmem
    rw [hmn, hmx] at hq
    exact ⟨ar, hmem, hq⟩
  · exact (hiff 0 10 0 (by norm_num)).1

/-! ## Claim C1 -/

set_option maxHeartbeats 2000000 in
theorem parseTraceRecord_fields (epi : ℤ) (d : String) (r : Row)
    (h : parseTraceRecord epi d = some r) : matchesRecord epi d r := by
  unfold parseTraceRecord at h
  rw [Option.bind_eq_some] at h
  obtain ⟨episode, he, h⟩ := h
  rw [Option.bind_eq_some] at h
  obtain ⟨steps, hs, h⟩ := h
  rw [Option.bind_eq_some] at h
  obtain ⟨x, hx, h⟩ := h
  rw [Option.bind_eq_some] at h
  obtain ⟨y, hy, h⟩ := h
  rw [Option.bind_eq_some] at h
  obtain ⟨yaw, hyaw, h⟩ := h
  rw [Option.bind_eq_some] at h
  obtain ⟨steer, hsteer, h⟩ := h
  rw [Option.bind_eq_some] at h
  obtain ⟨throttle, hth, h⟩ := h
  rw [Option.bind_eq_some] at h
  obtain ⟨action, hac, h⟩ := h
  rw [Option.bind_eq_some] at h
  obtain ⟨reward, hrw, h⟩ := h
  rw [Option.bind_eq_some] at h
  obtain ⟨p9, hp9, h⟩ := h
  rw [Option.bind_eq_some] at h
  obtain ⟨ot, hot, h⟩ := h
  rw [Option.bind_eq_some] at h
  obtain ⟨progress, hpr, h⟩ := h
  rw [Option.bind_eq_some] at h
  obtain ⟨cw, hcw, h⟩ := h
  rw [Option.bind_eq_some] at h
  obtain ⟨tl, htl, h⟩ := h
  rw [Option.bind_eq_some] at h
  obtain ⟨ts, hts, h⟩ := h
  by_cases hz : epi = 0
  · rw [if_pos hz] at h
    cases h
  · rw [if_neg hz] at h
    injection h with h
    subst h
    exact ⟨he, hs, hx, hy, hyaw, hsteer, hth, hac, hrw, by rw [hp9]; rfl, hot, hpr, hcw,
      htl, hts, rfl⟩

theorem convertRows_sound (epi : ℤ) :
    ∀ (ds : List String), (∀ d ∈ ds, (parseTraceRecord epi d).isSome = true) →
      ∃ rs, convertRows epi ds = some rs ∧ rs.length = ds.length ∧
        ∀ i (hi : i < ds.length) (hr : i < rs.length),
          parseTraceRecord epi (ds.get ⟨i, hi⟩) = some (rs.get ⟨i, hr⟩) := by
  intro ds
  induction ds with
  | nil =>
    intro _
    exact ⟨[], rfl, rfl, fun i hi => absurd hi (by simp)⟩
  | cons d ds ih =>
    intro h
    have hd := h d (List.mem_cons_self _ _)
    obtain ⟨r, hr⟩ := Option.isSome_iff_exists.mp hd
    obtain ⟨rs, hrs, hlen, hpt⟩ := ih (fun x hx => h x (List.mem_cons_of_mem _ hx))
    refine ⟨r :: rs, ?_, by simp [hlen], ?_⟩
    · simp [convertRows, hr, hrs]
    · intro i hi hri
      cases i with
      | zero => simpa using hr
      | succ n =>
        simp only [List.get_cons_succ]
        exact hpt n (by simpa using hi) (by simpa using hri)

/-- Claim C1: on input whose records after the two discarded placeholders are
all well formed, `convert_to_pandas` produces a frame with exactly one row per
record, exactly the sixteen documented columns, and each row's values are the
strict positional casts of the corresponding comma-separated input fields,
with x and y scaled by 100 and iteration derived from the parsed episode. -/
theorem convert_to_pandas_roundtrip (data : List String) (epi : ℤ)
    (h : ∀ d ∈ data.drop 2, (parseTraceRecord epi d).isSome = true) :
    ∃ t, convert_to_pandas data epi = some t ∧
      t.rows.length = (data.drop 2).length ∧
      header = ["iteration", "episode", "steps", "x", "y", "yaw", "steer",
        "throttle", "action", "reward", "done", "on_track", "progress",
        "closest_waypoint", "track_len", "timestamp"] ∧
      ∀ i (hi : i < (data.drop 2).length) (hr : i < t.rows.length),
        matchesRecord epi ((data.drop 2).get ⟨i, hi⟩) (t.rows.get ⟨i, hr⟩) := by
  obtain ⟨rs, hrs, hlen, hpt⟩ := convertRows_sound epi (data.drop 2) h
  refine ⟨⟨rs, none⟩, ?_, hlen, rfl, ?_⟩
  · unfold convert_to_pandas
    rw [hrs]
    rfl
  · intro i hi hr
    exact parseTraceRecord_fields epi _ _ (hpt i hi hr)

/-- Claim C1 witness: a synthetic log with the two placeholder records and one
well-formed trace record converts to a one-row frame. -/
theorem convert_to_pandas_roundtrip_example :
    ∃ t, convert_to_pandas dataC1 20 = some t ∧ t.rows.length = 1 := by
  obtain ⟨t, h1, h2, h3, h4⟩ :=
    convert_to_pandas_roundtrip dataC1 20 (by with_unfolding_all decide)
  refine ⟨t, h1, ?_⟩
  rw [h2]
  with_unfolding_all decide

/-! ## Claim C8 -/

/-- Claim C8: for three colinear waypoints A, B, C (B strictly between A and C)
and a query point strictly between A and B, with B the recorded closest
waypoint, the selection of `df_to_params` projects the point onto the segment
before B, finds that the projection lies on it (the tie and the before-first
check both resolve toward the before segment), and returns the bracketing pair
[A-index, B-index] = (0, 1) — not [B-index, C-index] = (1, 2). -/
theorem df_to_params_brackets_colinear (A B C p : ℚ × ℚ) (u s : ℚ) (hAC : A ≠ C)
    (hu0 : 0 < u) (hu1 : u < 1) (hs0 : 0 < s) (hs1 : s < 1)
    (hB1 : B.1 = A.1 + u * (C.1 - A.1)) (hB2 : B.2 = A.2 + u * (C.2 - A.2))
    (hp1 : p.1 = A.1 + s * (B.1 - A.1)) (hp2 : p.2 = A.2 + s * (B.2 - A.2)) :
    df_to_params_closest_waypoints [A, B, C] 1 p.1 p.2 = (0, 1) ∧
    (1, 2) ≠ df_to_params_closest_waypoints [A, B, C] 1 p.1 p.2 := by
  have hu : u ≠ 0 := ne_of_gt hu0
  have hu1' : u - 1 ≠ 0 := by
    intro h0
    exact absurd (by linarith : u = 1) (ne_of_lt hu1)
  have hBA : B ≠ A := by
    intro hba
    rw [Prod.ext_iff] at hba
    have h1 : u * (C.1 - A.1) = 0 := by
      have := hba.1
      rw [hB1] at this
      linarith
    have h2 : u * (C.2 - A.2) = 0 := by
      have := hba.2
      rw [hB2] at this
      linarith
    have hc1 : C.1 - A.1 = 0 := by
      rcases mul_eq_zero.mp h1 with h | h
      · exact absurd h hu
      · exact h
    have hc2 : C.2 - A.2 = 0 := by
      rcases mul_eq_zero.mp h2 with h | h
      · exact absurd h hu
      · exact h
    exact hAC (Prod.ext_iff.mpr ⟨by linarith, by linarith⟩)
  have hBC : B ≠ C := by
    intro hbc
    rw [Prod.ext_iff] at hbc
    have h1 : (u - 1) * (C.1 - A.1) = 0 := by
      have := hbc.1
      rw [hB1] at this
      ring_nf
      ring_nf at this
      linarith
    have h2 : (u - 1) * (C.2 - A.2) = 0 := by
      have := hbc.2
      rw [hB2] at this
      ring_nf
      ring_nf at this
      linarith
    have hc1 : C.1 - A.1 = 0 := by
      rcases mul_eq_zero.mp h1 with h | h
      · exact absurd h hu1'
      · exact h
    have hc2 : C.2 - A.2 = 0 := by
      rcases mul_eq_zero.mp h2 with h | h
      · exact absurd h hu1'
      · exact h
    exact hAC (Prod.ext_iff.mpr ⟨by linarith, by linarith⟩)
  have e0 : pyIdx [A, B, C] 0 = A := by norm_num [pyIdx]
  have e1 : pyIdx [A, B, C] 1 = B := by norm_num [pyIdx]
  have e2 : pyIdx [A, B, C] 2 = C := by
    norm_num [pyIdx, show ((2 : ℤ)).toNat = 2 from rfl]
  have hden : (B.1 - A.1) * (B.1 - A.1) + (B.2 - A.2) * (B.2 - A.2) ≠ 0 := by
    intro h0
    have hz1 : B.1 - A.1 = 0 := by nlinarith [sq_nonneg (B.1 - A.1), sq_nonneg (B.2 - A.2)]
    have hz2 : B.2 - A.2 = 0 := by nlinarith [sq_nonneg (B.1 - A.1), sq_nonneg (B.2 - A.2)]
    exact hBA (Prod.ext_iff.mpr ⟨by linarith, by linarith⟩)
  have hprojeq : get_a_point_on_a_line_closest_to_point A B (p.1, p.2) = (p.1, p.2) := by
    unfold get_a_point_on_a_line_closest_to_point
    have hnum : ((p.1, p.2).1 - A.1) * (B.1 - A.1) + ((p.1, p.2).2 - A.2) * (B.2 - A.2)
        = s * ((B.1 - A.1) * (B.1 - A.1) + (B.2 - A.2) * (B.2 - A.2)) := by
      show (p.1 - A.1) * (B.1 - A.1) + (p.2 - A.2) * (B.2 - A.2) = _
      rw [hp1, hp2]
      ring
    rw [hnum, mul_div_assoc, div_self hden, mul_one]
    exact Prod.ext hp1.symm hp2.symm
  have hseg : is_point_roughly_on_the_line A B p.1 p.2 = true := by
    unfold is_point_roughly_on_the_line
    simp only [Bool.and_eq_true, decide_eq_true_eq]
    have hx1 : min A.1 B.1 ≤ p.1 ∧ p.1 ≤ max A.1 B.1 := by
      rw [hp1]
      rcases le_total A.1 B.1 with hod | hod
      · rw [min_eq_left hod, max_eq_right hod]
        constructor
        · nlinarith [mul_nonneg hs0.le (sub_nonneg.mpr hod)]
        · nlinarith [mul_nonneg (by linarith : (0 : ℚ) ≤ 1 - s) (sub_nonneg.mpr hod)]
      · rw [min_eq_right hod, max_eq_left hod]
        constructor
        · nlinarith [mul_nonneg (by linarith : (0 : ℚ) ≤ 1 - s) (sub_nonneg.mpr hod)]
        · nlinarith [mul_nonneg hs0.le (sub_nonneg.mpr hod)]
    have hx2 : min A.2 B.2 ≤ p.2 ∧ p.2 ≤ max A.2 B.2 := by
      rw [hp2]
      rcases le_total A.2 B.2 with hod | hod
      · rw [min_eq_left hod, max_eq_right hod]
        constructor
        · nlinarith [mul_nonneg hs0.le (sub_nonneg.mpr hod)]
        · nlinarith [mul_nonneg (by linarith : (0 : ℚ) ≤ 1 - s) (sub_nonneg.mpr hod)]
      · rw [min_eq_right hod, max_eq_left hod]
        constructor
        · nlinarith [mul_nonneg (by linarith : (0 : ℚ) ≤ 1 - s) (sub_nonneg.mpr hod)]
        · nlinarith [mul_nonneg hs0.le (sub_nonneg.mpr hod)]
    exact ⟨⟨hx1.1, hx1.2⟩, hx2.1, hx2.2⟩
  have hmain : df_to_params_closest_waypoints [A, B, C] 1 p.1 p.2 = (0, 1) := by
    simp only [df_to_params_closest_waypoints]
    norm_num [e0, e1, e2, hBA, hBC, hprojeq, hseg]
  exact ⟨hmain, by rw [hmain]; decide⟩

/-- Claim C8 witness: colinear waypoints A=(0,0), B=(2,0), C=(4,0) with query
point (1,0) strictly between A and B and recorded closest waypoint B select
the bracketing pair (0, 1), not (1, 2). -/
theorem df_to_params_brackets_colinear_example :
    df_to_params_closest_waypoints [(0, 0), (2, 0), (4, 0)] 1 1 0 = (0, 1) := by
  have h := df_to_params_brackets_colinear (0, 0) (2, 0) (4, 0) (1, 0) (1 / 2) (1 / 2)
    (by with_unfolding_all decide) (by with_unfolding_all decide)
    (by with_unfolding_all decide) (by with_unfolding_all decide)
    (by with_unfolding_all decide) (by with_unfolding_all decide)
    (by with_unfolding_all decide) (by with_unfolding_all decide)
    (by with_unfolding_all decide)
  exact h.1
